import Mathlib

/-!
Verification development for the `langchain_ibm` chat-model adapter
(`libs/ibm/langchain_ibm/chat_models.py`).

The Python data and operations are shallowly embedded:

* `PyVal` models the JSON-like Python values the module manipulates
  (`None`, `bool`, `int`, `float`, `str`, `list`, `dict` with
  insertion-ordered keys).
* `pyJsonLoads` models `json.loads` for the JSON fragment the module
  relies on (objects, arrays, strings with the common escapes, integer
  and decimal/exponent numbers, `true`/`false`/`null`).  Numbers are
  kept as an integer significand and exponent; `NaN`/`Infinity`
  literals and `\u` escapes are not modelled.
* Exceptions raised by the Python code are modelled with
  `Except String`; the error strings name the Python exception.
* Module-level helper functions keep their source names
  (`remove_tags_and_parse`, `_is_valid_tool_call_format`,
  `_tool_calling`, `_post_processing`, `_convert_message_to_dict`,
  `_convert_dict_to_message`) and the `ChatWatsonx` methods are
  embedded as top-level functions taking the relevant fields
  (`model_id`, `params`) as arguments.
-/

/-- Model of the JSON-like Python values handled by the module.  A Python
`dict` is an insertion-ordered association list; `float` is kept as a
significand/exponent pair (only its truthiness is ever used). -/
inductive PyVal : Type where
  | none : PyVal
  | bool : Bool → PyVal
  | int : Int → PyVal
  | float : Int → Int → PyVal
  | str : String → PyVal
  | list : List PyVal → PyVal
  | dict : List (String × PyVal) → PyVal

/-- Python `d[k]` / `d.get(k)` lookup: first matching key (keys built by the
embedding are unique, as in a Python dict). -/
def pyGet : List (String × PyVal) → String → Option PyVal
  | [], _ => Option.none
  | (k2, v) :: rest, k => if k2 = k then some v else pyGet rest k

/-- Python `d[k] = v` / `d.update({k: v})`: overwrite in place if the key
exists, otherwise append (insertion order preserved). -/
def pySet : List (String × PyVal) → String → PyVal → List (String × PyVal)
  | [], k, v => [(k, v)]
  | (k2, v2) :: rest, k, v =>
    if k2 = k then (k, v) :: rest else (k2, v2) :: pySet rest k v

/-- Python truthiness of a value. -/
def truthy : PyVal → Bool
  | .none => false
  | .bool b => b
  | .int n => n != 0
  | .float m _ => m != 0
  | .str s => s != ""
  | .list xs => !xs.isEmpty
  | .dict kvs => !kvs.isEmpty

/-- The characters that Python regular expressions treat as `\s`
(ASCII range; unicode whitespace is not modelled). -/
def isPySpace (c : Char) : Bool :=
  c = ' ' || c = '\t' || c = '\n' || c = '\r' || c = '\x0b' || c = '\x0c'

/-- Opening brace character. -/
def obraceC : Char := Char.ofNat 123

/-- Closing brace character. -/
def cbraceC : Char := Char.ofNat 125

/-- JSON whitespace accepted between tokens by `json.loads`. -/
def jsonWs (c : Char) : Bool :=
  c = ' ' || c = '\t' || c = '\n' || c = '\r'

/-- Drop leading JSON whitespace. -/
def skipJsonWs : List Char → List Char
  | [] => []
  | c :: cs => if jsonWs c then skipJsonWs cs else c :: cs

/-- The JSON string escape table (the `\u` form is not modelled): each
escape letter paired with the character it denotes. -/
def escPairs : List (Char × Char) :=
  [('"', '"'), ('\\', '\\'), ('/', '/'), ('n', '\n'), ('t', '\t'),
   ('r', '\r'), ('b', Char.ofNat 8), ('f', Char.ofNat 12)]

/-- Look up a JSON escape letter. -/
def escChar (e : Char) : Option Char :=
  (escPairs.find? fun p => p.1 = e).map fun p => p.2

/-- Whether `pat` is a prefix of the character list. -/
def startsWithChars : List Char → List Char → Bool
  | [], _ => true
  | _ :: _, [] => false
  | p :: ps, c :: cs => p = c && startsWithChars ps cs

/-- Consume the remaining characters of a keyword such as `null`, `true` or
`false` (the first character was already inspected). -/
def afterKeyword (kw : String) (cs : List Char) : Option (List Char) :=
  if startsWithChars kw.data cs then some (cs.drop kw.data.length)
  else Option.none

/-- Parse the body of a JSON string (after the opening quote), returning the
decoded characters and the remaining input. -/
def parseJString : List Char → Option (List Char × List Char)
  | [] => Option.none
  | '"' :: cs => some ([], cs)
  | '\\' :: e :: cs =>
    (escChar e).bind fun ch => (parseJString cs).map fun p => (ch :: p.1, p.2)
  | c :: cs =>
    if c = '\\' then Option.none
    else (parseJString cs).map fun p => (c :: p.1, p.2)

/-- Read a run of decimal digits, returning value, digit count and rest. -/
def parseDigitsCnt : Nat → Nat → List Char → Nat × Nat × List Char
  | acc, cnt, [] => (acc, cnt, [])
  | acc, cnt, c :: cs =>
    if c.isDigit then parseDigitsCnt (acc * 10 + (c.toNat - 48)) (cnt + 1) cs
    else (acc, cnt, c :: cs)

/-- Parse an exponent part (after `e`/`E`). -/
def parseExpPart (cs : List Char) : Option (Int × List Char) :=
  let (neg, cs1) : Bool × List Char :=
    match cs with
    | '+' :: r => (false, r)
    | '-' :: r => (true, r)
    | r => (false, r)
  match cs1 with
  | c :: _ =>
    if c.isDigit then
      let (v, _, rest) := parseDigitsCnt 0 0 cs1
      some (if neg then -(v : Int) else (v : Int), rest)
    else Option.none
  | [] => Option.none

/-- Parse a JSON number.  Integers become `PyVal.int`; numbers with a
fraction or exponent become `PyVal.float` (significand, exponent). -/
def parseNumber (cs : List Char) : Option (PyVal × List Char) :=
  let (neg, cs1) : Bool × List Char :=
    match cs with
    | '-' :: r => (true, r)
    | r => (false, r)
  match cs1 with
  | c :: _ =>
    if c.isDigit then
      let (ip, _, cs2) := parseDigitsCnt 0 0 cs1
      let signed : Int → Int := fun n => if neg then -n else n
      match cs2 with
      | '.' :: d :: r =>
        if d.isDigit then
          let (fp, fl, cs3) := parseDigitsCnt 0 0 (d :: r)
          let sig := signed ((ip : Int) * (10 : Int) ^ fl + (fp : Int))
          match cs3 with
          | 'e' :: r2 =>
            (parseExpPart r2).map fun p => (PyVal.float sig (p.1 - (fl : Int)), p.2)
          | 'E' :: r2 =>
            (parseExpPart r2).map fun p => (PyVal.float sig (p.1 - (fl : Int)), p.2)
          | _ => some (PyVal.float sig (-(fl : Int)), cs3)
        else Option.none
      | 'e' :: r2 =>
        (parseExpPart r2).map fun p => (PyVal.float (signed (ip : Int)) p.1, p.2)
      | 'E' :: r2 =>
        (parseExpPart r2).map fun p => (PyVal.float (signed (ip : Int)) p.1, p.2)
      | _ => some (PyVal.int (signed (ip : Int)), cs2)
    else Option.none
  | [] => Option.none

mutual

/-- Fuel-indexed JSON value parser (model of the recursive descent in
`json.loads`). -/
def parseVal : Nat → List Char → Option (PyVal × List Char)
  | 0, _ => Option.none
  | fuel + 1, cs0 =>
    match skipJsonWs cs0 with
    | [] => Option.none
    | c :: r =>
      if c = 'n' then
        (afterKeyword "ull" r).map fun r2 => (PyVal.none, r2)
      else if c = 't' then
        (afterKeyword "rue" r).map fun r2 => (PyVal.bool true, r2)
      else if c = 'f' then
        (afterKeyword "alse" r).map fun r2 => (PyVal.bool false, r2)
      else if c = '"' then
        (parseJString r).map fun p => (PyVal.str (String.mk p.1), p.2)
      else if c = '[' then
        match skipJsonWs r with
        | [] => Option.none
        | d :: r2 =>
          if d = ']' then some (PyVal.list [], r2)
          else (parseItems fuel (d :: r2)).map fun p => (PyVal.list p.1, p.2)
      else if c = obraceC then
        match skipJsonWs r with
        | [] => Option.none
        | d :: r2 =>
          if d = cbraceC then some (PyVal.dict [], r2)
          else
            (parsePairs fuel (d :: r2)).map fun p =>
              (PyVal.dict (p.1.foldl (fun d2 kv => pySet d2 kv.1 kv.2) []), p.2)
      else parseNumber (c :: r)

/-- Comma-separated JSON array items up to the closing bracket. -/
def parseItems : Nat → List Char → Option (List PyVal × List Char)
  | 0, _ => Option.none
  | fuel + 1, cs =>
    (parseVal fuel cs).bind fun p =>
      match skipJsonWs p.2 with
      | [] => Option.none
      | c :: r =>
        if c = ',' then
          (parseItems fuel r).map fun q => (p.1 :: q.1, q.2)
        else if c = ']' then some ([p.1], r)
        else Option.none

/-- Comma-separated JSON object members up to the closing brace. -/
def parsePairs : Nat → List Char → Option (List (String × PyVal) × List Char)
  | 0, _ => Option.none
  | fuel + 1, cs =>
    match skipJsonWs cs with
    | [] => Option.none
    | c :: r =>
      if c = '"' then
        (parseJString r).bind fun kp =>
          match skipJsonWs kp.2 with
          | ':' :: r2 =>
            (parseVal fuel r2).bind fun vp =>
              match skipJsonWs vp.2 with
              | [] => Option.none
              | d :: r3 =>
                if d = ',' then
                  (parsePairs fuel r3).map fun q =>
                    ((String.mk kp.1, vp.1) :: q.1, q.2)
                else if d = cbraceC then some ([(String.mk kp.1, vp.1)], r3)
                else Option.none
          | _ => Option.none
      else Option.none

end

/-- Model of `json.loads`: parse one value and require only whitespace after
it.  Returns `Option.none` where Python raises `JSONDecodeError`. -/
def pyJsonLoads (s : String) : Option PyVal :=
  match parseVal (4 * s.length + 16) s.data with
  | some (v, rest) => if (skipJsonWs rest).isEmpty then some v else Option.none
  | Option.none => Option.none

mutual

/-- Model of `json.dumps` with the default separators (`", "`, `": "`).
Only the escapes produced by this module matter; non-ASCII escaping is not
modelled. -/
def jsonDumps : PyVal → String
  | .none => "null"
  | .bool true => "true"
  | .bool false => "false"
  | .int n => toString n
  | .float m e => toString m ++ "e" ++ toString e
  | .str s => "\"" ++ jsonEscape s.data ++ "\""
  | .list xs => "[" ++ jsonDumpsList xs ++ "]"
  | .dict kvs => "\x7b" ++ jsonDumpsKVs kvs ++ "\x7d"

/-- JSON-escape the characters of a string for `jsonDumps`. -/
def jsonEscape : List Char → String
  | [] => ""
  | c :: cs =>
    (if c = '"' then "\\\""
     else if c = '\\' then "\\\\"
     else if c = '\n' then "\\n"
     else if c = '\t' then "\\t"
     else if c = '\r' then "\\r"
     else String.mk [c]) ++ jsonEscape cs

/-- Elements of a dumped JSON array. -/
def jsonDumpsList : List PyVal → String
  | [] => ""
  | [x] => jsonDumps x
  | x :: xs => jsonDumps x ++ ", " ++ jsonDumpsList xs

/-- Members of a dumped JSON object. -/
def jsonDumpsKVs : List (String × PyVal) → String
  | [] => ""
  | [(k, v)] => "\"" ++ jsonEscape k.data ++ "\": " ++ jsonDumps v
  | (k, v) :: kvs =>
    "\"" ++ jsonEscape k.data ++ "\": " ++ jsonDumps v ++ ", " ++ jsonDumpsKVs kvs

end

mutual

/-- Model of Python `repr` as used when a dict or list is interpolated into
an f-string: single-quoted strings (quote escaping is not modelled — no
interpolated value in this module contains a quote), `True`/`False`/`None`,
and `\x7b'k': v\x7d` / `[v, ...]` container forms. -/
def pyRepr : PyVal → String
  | .none => "None"
  | .bool true => "True"
  | .bool false => "False"
  | .int n => toString n
  | .float m e => toString m ++ "e" ++ toString e
  | .str s => "\x27" ++ s ++ "\x27"
  | .list xs => "[" ++ pyReprList xs ++ "]"
  | .dict kvs => "\x7b" ++ pyReprKVs kvs ++ "\x7d"

/-- Elements of a repr-ed Python list. -/
def pyReprList : List PyVal → String
  | [] => ""
  | [x] => pyRepr x
  | x :: xs => pyRepr x ++ ", " ++ pyReprList xs

/-- Members of a repr-ed Python dict. -/
def pyReprKVs : List (String × PyVal) → String
  | [] => ""
  | [(k, v)] => "\x27" ++ k ++ "\x27: " ++ pyRepr v
  | (k, v) :: kvs =>
    "\x27" ++ k ++ "\x27: " ++ pyRepr v ++ ", " ++ pyReprKVs kvs

end

/-- Model of Python `str()`: identity on strings, `repr` otherwise. -/
def pyStr : PyVal → String
  | .str s => s
  | v => pyRepr v

/-- Character-list worker for `re.sub(r"\s+", " ", s)`: each maximal run of
whitespace becomes one space.  The flag records whether the previous
character was part of a whitespace run. -/
def collapseAux : Bool → List Char → List Char
  | _, [] => []
  | prevWs, c :: cs =>
    if isPySpace c then
      if prevWs then collapseAux true cs else ' ' :: collapseAux true cs
    else c :: collapseAux false cs

/-- Model of `re.sub(r"\s+", " ", s)`. -/
def pySubWs (s : String) : String := String.mk (collapseAux false s.data)

/-- Remove trailing Python whitespace from a character list. -/
def stripEnd : List Char → List Char
  | [] => []
  | c :: cs =>
    match stripEnd cs with
    | [] => if isPySpace c then [] else [c]
    | r => c :: r

/-- Model of Python `str.strip()` (no arguments: strip whitespace at both
ends). -/
def pyStrip (s : String) : String :=
  String.mk (stripEnd (s.data.dropWhile fun c => isPySpace c))

/-- The character class `[A-Za-z0-9\s,.-]` of the fallback filter in
`_post_processing` (ASCII reading of `\s`). -/
def isContentChar (c : Char) : Bool :=
  c.isAlpha || c.isDigit || isPySpace c || c = ',' || c = '.' || c = '-'

/-- Model of `"".join(re.findall(r"[A-Za-z0-9\s,.-]+", s))`: the
concatenation of all maximal runs of class characters is exactly the
subsequence of characters in the class. -/
def joinFindall (s : String) : String :=
  String.mk (s.data.filter fun c => isContentChar c)

/-- Fuel-indexed worker for `pyReplace` (left-to-right, non-overlapping
replacement, as Python `str.replace`). -/
def replaceAux (pat repl : List Char) : Nat → List Char → List Char
  | 0, s => s
  | _, [] => []
  | fuel + 1, c :: cs =>
    if startsWithChars pat (c :: cs) then
      repl ++ replaceAux pat repl fuel ((c :: cs).drop pat.length)
    else c :: replaceAux pat repl fuel cs

/-- Model of Python `s.replace(pat, repl)` for a non-empty pattern. -/
def pyReplace (s pat repl : String) : String :=
  String.mk (replaceAux pat.data repl.data s.data.length s.data)

/-- The fixed control-token sequence stripped by `remove_tags_and_parse`. -/
def tagsToRemove : String :=
  "<|python_tag|><|start_header_id|>assistant<|end_header_id|>"

/-- The module-level `TOOL_SCHEMA` constant, as a Python dict value
(insertion order as in the source). -/
def TOOL_SCHEMA : PyVal :=
  PyVal.dict
    [("$schema", PyVal.str "http://json-schema.org/draft-07/schema#"),
     ("type", PyVal.str "object"),
     ("properties", PyVal.dict
       [("name", PyVal.dict
          [("type", PyVal.str "string"),
           ("description", PyVal.str "The name of the tool.")]),
        ("description", PyVal.dict
          [("type", PyVal.str "string"),
           ("description", PyVal.str "A description of what the tool does.")]),
        ("args", PyVal.dict
          [("type", PyVal.str "object"),
           ("properties", PyVal.dict
             [("query", PyVal.dict
                [("type", PyVal.str "object"),
                 ("properties", PyVal.dict
                   [("description", PyVal.dict
                      [("type", PyVal.str "string"),
                       ("description",
                        PyVal.str "The description of the query argument.")])]),
                 ("required", PyVal.list [PyVal.str "description"])])]),
           ("required", PyVal.list [PyVal.str "query"])])]),
     ("required",
      PyVal.list [PyVal.str "name", PyVal.str "description", PyVal.str "args"])]

/-- The message produced by `_tool_calling` and company; `_post_processing`
always returns an `AIMessage`, so the result type carries its content, raw
tool-call values and optional usage metadata. -/
structure UsageMetadata where
  input_tokens : Int
  output_tokens : Int
  total_tokens : Int
deriving DecidableEq, Repr

/-- Model of the `AIMessage` objects this module constructs (external
`langchain_core` class; only the fields this module reads or writes are
kept). -/
structure AIMsg where
  content : String
  tool_calls : List PyVal
  usage_metadata : Option UsageMetadata

/-- Model of `_is_json`: `json.loads` the input and return the parsed value
(used for its truthiness), or `False` on `JSONDecodeError`.  Truthiness is
all the caller uses, so the model returns the boolean directly. -/
def _is_json (input : String) : Bool :=
  match pyJsonLoads input with
  | some v => truthy v
  | Option.none => false

/-- Model of `remove_tags_and_parse`: strip the fixed tag sequence, trim
whitespace, parse as JSON when `_is_json` holds, otherwise return the
cleaned string with markdown fences (triple backticks) removed. -/
def remove_tags_and_parse (input_string : String) : PyVal :=
  let cleaned_string := pyStrip (pyReplace input_string tagsToRemove "")
  if _is_json cleaned_string then
    match pyJsonLoads cleaned_string with
    | some v => v
    | Option.none => PyVal.str (pyReplace cleaned_string "```" "")
  else PyVal.str (pyReplace cleaned_string "```" "")

/-- Model of `_is_valid_tool_call_format`: parse a string argument as JSON
(`False` on failure), unwrap a one-element list around a dict, and require a
dict whose `args` entry is a dict containing a `query` key. -/
def _is_valid_tool_call_format (tool : PyVal) : Bool :=
  let parsed : Option PyVal :=
    match tool with
    | .str s => pyJsonLoads s
    | t => some t
  match parsed with
  | Option.none => false
  | some t1 =>
    let unwrapped : Option PyVal :=
      match t1 with
      | .list xs =>
        match xs with
        | [d] =>
          match d with
          | .dict kvs => some (PyVal.dict kvs)
          | _ => Option.none
        | _ => Option.none
      | t => some t
    match unwrapped with
    | Option.none => false
    | some t2 =>
      match t2 with
      | .dict kvs =>
        match pyGet kvs "args" with
        | some (.dict argxs) => argxs.any fun kv => kv.1 = "query"
        | _ => false
      | _ => false

/-- The normalisation step of `_tool_calling`.  Python uses an `if`/`elif`
chain: when the argument is a one-element list wrapping a dict it is
replaced by that dict and the `elif isinstance(..., dict)` re-wrapping is
NOT executed, so the dict itself (not a one-element list) flows into the
iteration below. -/
def normalizeRawToolCalls : PyVal → Except String PyVal
  | .list [PyVal.dict kvs] => .ok (PyVal.dict kvs)
  | .list _ => .error "ValueError: Expected a list with a single dictionary element"
  | .dict kvs => .ok (PyVal.list [PyVal.dict kvs])
  | v => .ok v

/-- Python `for tool in x` iteration: a list yields its elements, a dict
yields its keys (as strings), a string yields its characters; anything else
raises `TypeError`. -/
def pyIterate : PyVal → Except String (List PyVal)
  | .list xs => .ok xs
  | .dict kvs => .ok (kvs.map fun kv => PyVal.str kv.1)
  | .str s => .ok (s.data.map fun c => PyVal.str (String.mk [c]))
  | _ => .error "TypeError: object is not iterable"

/-- The loop body of `_tool_calling`: `tool.update({"id": call_id})` per
item; a non-dict item raises `AttributeError` as in Python. -/
def updateWithId : List PyVal → String → Except String (List PyVal)
  | [], _ => .ok []
  | PyVal.dict kvs :: rest, cid =>
    match updateWithId rest cid with
    | .ok tcs => .ok (PyVal.dict (pySet kvs "id" (PyVal.str cid)) :: tcs)
    | .error e => .error e
  | _ :: _, _ => .error "AttributeError: object has no attribute update"

/-- The initial `isinstance(raw_tool_calls, str)` step of `_tool_calling`:
a string is `json.loads`-ed (the `JSONDecodeError` propagates), any other
value passes through. -/
def pyParseIfStr : PyVal → Except String PyVal
  | .str s =>
    match pyJsonLoads s with
    | some v => .ok v
    | Option.none => .error "json.JSONDecodeError"
  | v => .ok v

/-- Model of `_tool_calling`: parse a string argument, normalise, iterate
stamping the call id onto each item, and build an assistant message with
empty content. -/
def _tool_calling (raw_tool_calls : PyVal) (call_id : String) :
    Except String AIMsg :=
  (pyParseIfStr raw_tool_calls).bind fun p =>
    (normalizeRawToolCalls p).bind fun n =>
      (pyIterate n).bind fun items =>
        (updateWithId items call_id).map fun tool_calls =>
          ⟨"", tool_calls, Option.none⟩

/-- One entry of the provider response `results` list (fields the module
reads; a missing field is `Option.none`). -/
structure ResultEntry where
  generated_text : String
  stop_reason : Option String
  generated_token_count : Option Int
  input_token_count : Option Int

/-- Model of `_post_processing`: classify the (tag-stripped, possibly
JSON-parsed) generated text.  A valid tool-call shape goes to
`_tool_calling`; a remaining dict becomes an assistant message carrying the
verbatim `content`/`tool_calls` fields; a remaining string is filtered to
`[A-Za-z0-9\s,.-]` after removing line breaks; any other remaining value
raises `AttributeError` on `.replace` as in Python. -/
def _post_processing (res : ResultEntry) (call_id : String) :
    Except String AIMsg :=
  let raw_message := remove_tags_and_parse res.generated_text
  if _is_valid_tool_call_format raw_message then
    _tool_calling raw_message call_id
  else
    match raw_message with
    | .dict kvs =>
      let contentVal := (pyGet kvs "content").getD (PyVal.str "")
      let toolCallsVal := (pyGet kvs "tool_calls").getD (PyVal.list [])
      match contentVal, toolCallsVal with
      | .str c, .list tcs => .ok ⟨c, tcs, Option.none⟩
      | _, _ => .error "ValidationError: invalid AIMessage fields"
    | .str s => .ok ⟨joinFindall (pyReplace s "\n" ""), [], Option.none⟩
    | _ => .error "AttributeError: object has no attribute replace"

/-- Model of the framework message classes handled by
`_convert_message_to_dict` (`ChatMessage`, `HumanMessage`, `AIMessage`,
`SystemMessage`, `FunctionMessage`, `ToolMessage`).  Contents are strings
(list-typed content blocks are not modelled); `ak` is the message's
`additional_kwargs` mapping and `tool_calls` the typed tool-call list of an
`AIMessage`. -/
inductive BMsg : Type where
  | chat (role : String) (content : String) (ak : List (String × PyVal))
  | human (content : String) (ak : List (String × PyVal))
  | ai (content : String) (tool_calls : List PyVal) (ak : List (String × PyVal))
  | system (content : String) (ak : List (String × PyVal))
  | function (content : String) (name : String) (ak : List (String × PyVal))
  | tool (content : String) (tool_call_id : String) (ak : List (String × PyVal))

/-- The `additional_kwargs` of a message. -/
def BMsg.ak : BMsg → List (String × PyVal)
  | .chat _ _ a => a
  | .human _ a => a
  | .ai _ _ a => a
  | .system _ a => a
  | .function _ _ a => a
  | .tool _ _ a => a

/-- Set `content` to `None` when it is the empty string (the assistant
branch of `_convert_message_to_dict` does this after copying
`function_call`/`tool_calls` from `additional_kwargs`). -/
def blankContentToNone (d : List (String × PyVal)) : List (String × PyVal) :=
  match pyGet d "content" with
  | some (.str c) => if c = "" then pySet d "content" PyVal.none else d
  | _ => d

/-- Model of `_convert_message_to_dict`.  Note the assistant branch: after
the two `additional_kwargs` checks, the condition `if "message.tool_calls":`
in the source is a non-empty string literal and therefore always true, so
`tool_calls` is always overwritten with the typed `message.tool_calls`
list. -/
def _convert_message_to_dict (message : BMsg) : PyVal :=
  let base : List (String × PyVal) :=
    match message with
    | .chat role content _ =>
      [("role", PyVal.str role), ("content", PyVal.str content)]
    | .human content _ =>
      [("role", PyVal.str "user"), ("content", PyVal.str content)]
    | .ai content tcs ak =>
      let d0 := [("role", PyVal.str "assistant"), ("content", PyVal.str content)]
      let d1 :=
        match pyGet ak "function_call" with
        | some fc => blankContentToNone (pySet d0 "function_call" fc)
        | Option.none => d0
      let d2 :=
        match pyGet ak "tool_calls" with
        | some tc => blankContentToNone (pySet d1 "tool_calls" tc)
        | Option.none => d1
      pySet d2 "tool_calls" (PyVal.list tcs)
    | .system content _ =>
      [("role", PyVal.str "system"), ("content", PyVal.str content)]
    | .function content name _ =>
      [("role", PyVal.str "function"), ("content", PyVal.str content),
       ("name", PyVal.str name)]
    | .tool content tcid _ =>
      [("role", PyVal.str "tool"), ("content", PyVal.str content),
       ("tool_call_id", PyVal.str tcid)]
  match pyGet message.ak "name" with
  | some n => PyVal.dict (pySet base "name" n)
  | Option.none => PyVal.dict base

/-- Model of `_convert_dict_to_message`.  The source iterates the input list
and calls `json.loads` on each ELEMENT, so a dict element raises `TypeError`
(only a JSON string succeeds); a parsed message with role `system`,
`assistant`, `user` or `tool` is appended, and every other role — including
`function` — is silently dropped.  The external `ToolMessage` constructor
requires `tool_call_id`, which the source does not pass, so the `tool`
branch raises a validation error. -/
def _convert_dict_to_message : List PyVal → Except String (List BMsg)
  | [] => .ok []
  | m :: rest =>
    match m with
    | .str s =>
      match pyJsonLoads s with
      | Option.none => .error "json.JSONDecodeError"
      | some jm =>
        match jm with
        | .dict kvs =>
          let tailRes := _convert_dict_to_message rest
          let withMsg : Option BMsg → Except String (List BMsg) := fun msg? =>
            match tailRes with
            | .error e => .error e
            | .ok msgs =>
              match msg? with
              | some msg => .ok (msg :: msgs)
              | Option.none => .ok msgs
          match pyGet kvs "role" with
          | some (.str "system") =>
            match pyGet kvs "content" with
            | some (.str c) => withMsg (some (BMsg.system c []))
            | some _ => .error "ValidationError: invalid content"
            | Option.none => .error "KeyError: content"
          | some (.str "assistant") =>
            match pyGet kvs "content" with
            | some (.str c) =>
              match (pyGet kvs "tool_calls").getD (PyVal.list []) with
              | .list tcs => withMsg (some (BMsg.ai c tcs []))
              | _ => .error "ValidationError: invalid tool_calls"
            | some _ => .error "ValidationError: invalid content"
            | Option.none => .error "KeyError: content"
          | some (.str "user") =>
            match pyGet kvs "content" with
            | some (.str c) => withMsg (some (BMsg.human c []))
            | some _ => .error "ValidationError: invalid content"
            | Option.none => .error "KeyError: content"
          | some (.str "tool") =>
            .error "ValidationError: tool_call_id field required"
          | _ => withMsg Option.none
        | _ => .error "AttributeError: object has no attribute get"
    | _ => .error "TypeError: the JSON object must be str"

/-- Join a list of lines with newlines (model of `"\n".join`). -/
def joinLines : List String → String
  | [] => ""
  | [x] => x
  | x :: xs => x ++ "\n" ++ joinLines xs

/-- Modelled from the external framework default used by the fallback of
`_create_chat_prompt`: `convert_to_messages` followed by
`ChatPromptValue.to_string` renders each role/content pair as
`"Role: content"` (`user`→`Human`, `assistant`→`AI`, `system`→`System`,
`tool`→`Tool`, `function`→`Function`) joined by newlines; rejection of
unknown role strings by `convert_to_messages` is not modelled. -/
def bufferRole (role : String) : String :=
  if role = "user" || role = "human" then "Human"
  else if role = "assistant" || role = "ai" then "AI"
  else if role = "system" then "System"
  else if role = "tool" then "Tool"
  else if role = "function" then "Function"
  else role

/-- The framework default chat-prompt stringification of a role/content
list (model of `get_buffer_string`). -/
def bufferString (messages : List (String × String)) : String :=
  joinLines (messages.map fun m => bufferRole m.1 ++ ": " ++ m.2)

/-- Model of `ChatWatsonx._create_chat_prompt` (`self.model_id` passed
explicitly; messages as role/content pairs).  Faithful details: the granite
user branch uses the `"<|user|>:"` tag with a colon; the llama-2 branch
appends nothing after the loop; in the llama-3-1 branch the assistant case
is an expression statement without assignment, so assistant messages
contribute nothing; the fallback appends an empty assistant message and
uses the framework stringification. -/
def _create_chat_prompt (model_id : String) (messages : List (String × String)) :
    String :=
  if model_id = "ibm/granite-13b-chat-v1" || model_id = "ibm/granite-13b-chat-v2" then
    (messages.foldl
      (fun p m =>
        if m.1 = "system" then p ++ "<|system|>\n" ++ m.2 ++ "\n\n"
        else if m.1 = "assistant" then p ++ "<|assistant|>\n" ++ m.2 ++ "\n\n"
        else if m.1 = "function" then p ++ "<|function|>\n" ++ m.2 ++ "\n\n"
        else if m.1 = "tool" then p ++ "<|tool|>\n" ++ m.2 ++ "\n\n"
        else p ++ "<|user|>:\n" ++ m.2 ++ "\n\n")
      "") ++ "<|assistant|>\n"
  else if model_id = "meta-llama/llama-2-13b-chat"
      || model_id = "meta-llama/llama-2-70b-chat" then
    messages.foldl
      (fun p m =>
        if m.1 = "system" then p ++ "[INST] <<SYS>>\n" ++ m.2 ++ "<</SYS>>\n\n"
        else if m.1 = "assistant" then p ++ m.2 ++ "\n[INST]\n\n"
        else p ++ m.2 ++ "\n[/INST]\n")
      ""
  else if model_id = "meta-llama/llama-3-1-70b-instruct" then
    (messages.foldl
      (fun p m =>
        if m.1 = "system" then
          p ++ "<|begin_of_text|><|start_header_id|>system<|end_header_id|>\n "
            ++ m.2 ++ " <|eot_id|>\n"
        else if m.1 = "assistant" then p
        else if m.1 = "tool_call" then
          p ++ "<|begin_of_text|><|start_header_id|>" ++ m.1
            ++ "<|end_header_id|>\n " ++ m.2 ++ " <|eot_id|>\n"
        else
          p ++ "<|begin_of_text|><|start_header_id|>user<|end_header_id|>\n "
            ++ m.2 ++ " <|eot_id|>\n")
      "") ++ "<|assistant|>\n"
  else bufferString (messages ++ [("assistant", "")])

/-- Literal text of the tool-instruction f-string before the interpolated
`{tool_descriptions}` (the `\n` escape plus the line break and blank line
of the triple-quoted source, then the 12-space indent). -/
def promptLit1 : String :=
  "Given the following functions, please respond with a JSON for a function call with its proper arguments that best answers the given prompt.\n\n\n            "

/-- Literal text between `{tool_descriptions}` and `{TOOL_SCHEMA}`. -/
def promptLit2 : String :=
  "\n\n\n            Tools should use the following format:\n\n            "

/-- Literal text after `{TOOL_SCHEMA}`: the `Reminder:` block, whose four
dash lines are joined by backslash line continuations in the source. -/
def promptLit3 : String :=
  "\n\n            Reminder:\n                -Required parameters MUST be specified                -Put the entire function call reply on one line                -ONLY use the function arguments provided in the tool description.                -If you do not need to use a tool or you have the answer then respond directly to the user.\n            "

/-- The tool-instruction f-string of `_generate` with `tool_descriptions`
and `TOOL_SCHEMA` interpolated by Python `str()`. -/
def toolInstructionPrompt (tds : List PyVal) : String :=
  promptLit1 ++ pyRepr (PyVal.list tds) ++ promptLit2 ++ pyRepr TOOL_SCHEMA
    ++ promptLit3

/-- Content of the synthetic system message appended by the tools branch:
`re.sub(r"\s+", " ", prompt).strip()`. -/
def syntheticContent (tds : List PyVal) : String :=
  pyStrip (pySubWs (toolInstructionPrompt tds))

/-- The reinforcing sentence appended after each merged system content. -/
def reminderText : String :=
  "\n When responding to the user your role should always be assistant"

/-- The `tool_descriptions` loop of `_generate`: for each tool,
`tool.get("function")`, then `function_call["parameters"]["properties"]`,
then a `{name, description, args}` dict; missing keys raise as in
Python. -/
def buildToolDescriptions : List PyVal → Except String (List PyVal)
  | [] => .ok []
  | tool :: rest =>
    let functionVal : Except String (List (String × PyVal)) :=
      match tool with
      | .dict kvs =>
        match pyGet kvs "function" with
        | some (.dict f) => .ok f
        | some _ => .error "TypeError: object is not subscriptable"
        | Option.none => .error "TypeError: NoneType is not subscriptable"
      | _ => .error "AttributeError: object has no attribute get"
    match functionVal with
    | .error e => .error e
    | .ok f =>
      match pyGet f "parameters" with
      | some (.dict ps) =>
        match pyGet ps "properties" with
        | some args =>
          match pyGet f "name", pyGet f "description" with
          | some nm, some ds =>
            match buildToolDescriptions rest with
            | .ok tds =>
              .ok (PyVal.dict
                    [("name", nm), ("description", ds), ("args", args)] :: tds)
            | .error e => .error e
          | Option.none, _ => .error "KeyError: name"
          | _, Option.none => .error "KeyError: description"
        | Option.none => .error "KeyError: properties"
      | some _ => .error "TypeError: object is not subscriptable"
      | Option.none => .error "KeyError: parameters"

/-- Whether a chat-message dict has role `"system"` (Python
`message.get("role") == "system"`; a missing or non-string role compares
unequal). -/
def isSystemDict : PyVal → Bool
  | .dict kvs =>
    match pyGet kvs "role" with
    | some (.str r) => r = "system"
    | _ => false
  | _ => false

/-- The system-merging loop of the tools branch: `system_message` is
extended with each system message's content followed by `reminderText`.
Concatenating a non-string content raises `TypeError`; calling `.get` on a
non-dict element raises `AttributeError` (both as in Python). -/
def sysLoop : List PyVal → String → Except String String
  | [], acc => .ok acc
  | PyVal.dict kvs :: rest, acc =>
    match pyGet kvs "role" with
    | some (.str r) =>
      if r = "system" then
        match pyGet kvs "content" with
        | some (.str c) => sysLoop rest (acc ++ c ++ reminderText)
        | _ => .error "TypeError: can only concatenate str"
      else sysLoop rest acc
    | _ => sysLoop rest acc
  | _ :: _, _ => .error "AttributeError: object has no attribute get"

/-- The tools branch of `_generate` (lines building `new_prompt` when
`kwargs["tools"]` is truthy): append the synthetic system message to the
dict-converted messages, merge every system content into one string, and
emit that single system message followed by the non-system messages in
order. -/
def toolsBranchNewPrompt (message_dicts : List PyVal) (tools : List PyVal) :
    Except String (List PyVal) :=
  match buildToolDescriptions tools with
  | .error e => .error e
  | .ok tds =>
    let chat_messages :=
      message_dicts ++
        [PyVal.dict
          [("role", PyVal.str "system"),
           ("content", PyVal.str (syntheticContent tds))]]
    match sysLoop chat_messages "" with
    | .error e => .error e
    | .ok system_message =>
      .ok (PyVal.dict
             [("role", PyVal.str "system"),
              ("content", PyVal.str system_message)]
           :: chat_messages.filter fun m => !isSystemDict m)

/-- Python dict merge `a | b` (right operand wins, insertion order of the
left preserved). -/
def pyMerge (a b : List (String × PyVal)) : List (String × PyVal) :=
  b.foldl (fun acc kv => pySet acc kv.1 kv.2) a

/-- Model of `ChatWatsonx._create_message_dicts` (`self.params` and
`kwargs["params"]` passed explicitly): merge the params, reject `stop`
when `stop_sequences` is already present, and dict-convert the
messages. -/
def _create_message_dicts (selfParams kwargsParams : List (String × PyVal))
    (messages : List BMsg) (stop : Option (List String)) :
    Except String (List PyVal × List (String × PyVal)) :=
  let params := pyMerge selfParams kwargsParams
  match stop with
  | some ss =>
    if params.any (fun kv => kv.1 = "stop_sequences") then
      .error "ValueError: stop_sequences found in both the input and default params."
    else
      .ok (messages.map _convert_message_to_dict,
           pySet params "stop_sequences" (PyVal.list (ss.map PyVal.str)))
  | Option.none => .ok (messages.map _convert_message_to_dict, params)

/-- Model of `ChatWatsonx._generate` up to the provider call, returning the
`prompt` argument passed to `watsonx_model.generate`
(`json.dumps(new_prompt)`).  Without truthy `tools` in `kwargs` the
`new_prompt` list is never populated and the dispatched prompt is
`json.dumps([])`. -/
def generatePromptArg (selfParams kwargsParams : List (String × PyVal))
    (messages : List BMsg) (stop : Option (List String))
    (tools : Option (List PyVal)) : Except String String :=
  match _create_message_dicts selfParams kwargsParams messages stop with
  | .error e => .error e
  | .ok (message_dicts, _params) =>
    match tools with
    | some ts =>
      if ts.isEmpty then .ok (jsonDumps (PyVal.list []))
      else
        match toolsBranchNewPrompt message_dicts ts with
        | .error e => .error e
        | .ok new_prompt => .ok (jsonDumps (PyVal.list new_prompt))
    | Option.none => .ok (jsonDumps (PyVal.list []))

/-- The provider response structure read by `_create_chat_result`
(`error` / `results` / `system_fingerprint`; absent keys are
`Option.none`). -/
structure RespModel where
  error : Option PyVal
  results : List ResultEntry
  system_fingerprint : Option String

/-- One `ChatGeneration` of the result: the processed message plus its
`generation_info` (`finish_reason`). -/
structure GenM where
  message : AIMsg
  finish_reason : Option String

/-- The assembled `ChatResult`: generations plus `llm_output`
(`token_usage` totals, model name, system fingerprint). -/
structure ChatResultM where
  generations : List GenM
  generated_token_count : Int
  input_token_count : Int
  model_name : String
  system_fingerprint : String

/-- The `for res in response["results"]` loop of `_create_chat_result`,
threading the two running token sums.  The message is post-processed
first; the sums then include the current entry, and when the running total
is non-zero the usage metadata written onto the current message is the
cumulative-so-far triple (the `isinstance(message, AIMessage)` guard is
always true since `_post_processing` always returns an `AIMessage`). -/
def buildGens (call_id : String) : Int → Int → List ResultEntry →
    Except String (List GenM × Int × Int)
  | sg, si, [] => .ok ([], sg, si)
  | sg, si, res :: rest =>
    match _post_processing res call_id with
    | .error e => .error e
    | .ok message =>
      let sg2 := sg + (res.generated_token_count.getD 0)
      let si2 := si + (res.input_token_count.getD 0)
      let total_token := sg2 + si2
      let message2 :=
        if total_token ≠ 0 then
          { message with usage_metadata := some ⟨si2, sg2, total_token⟩ }
        else message
      match buildGens call_id sg2 si2 rest with
      | .error e => .error e
      | .ok out2 =>
        .ok (⟨message2, res.stop_reason⟩ :: out2.1, out2.2)

/-- Model of `ChatWatsonx._create_chat_result` (`self.model_id` and the
per-call `call_id = uuid4().hex` passed explicitly).  `if
response.get("error")` is a truthiness test: only a truthy error value
raises `ValueError`. -/
def _create_chat_result (response : RespModel) (call_id : String)
    (model_id : String) : Except String ChatResultM :=
  let errVal := response.error.getD PyVal.none
  if truthy errVal then .error ("ValueError: " ++ pyStr errVal)
  else
    match buildGens call_id 0 0 response.results with
    | .error e => .error e
    | .ok out =>
      .ok ⟨out.1, out.2.1, out.2.2, model_id, response.system_fingerprint.getD ""⟩

/-- Cumulative `generated_token_count` over the first `n` results (a
missing field counts as 0) — the spec's running output-token sum. -/
def prefixGenSum (rs : List ResultEntry) (n : Nat) : Int :=
  ((rs.take n).map fun r => r.generated_token_count.getD 0).sum

/-- Cumulative `input_token_count` over the first `n` results (a missing
field counts as 0) — the spec's running input-token sum. -/
def prefixInSum (rs : List ResultEntry) (n : Nat) : Int :=
  ((rs.take n).map fun r => r.input_token_count.getD 0).sum

/-- The system content contributed by one chat-message dict: its string
content when its role is the string `"system"`, nothing otherwise. -/
def systemContentOf (m : PyVal) : Option String :=
  match m with
  | .dict kvs =>
    match pyGet kvs "role" with
    | some (.str r) =>
      if r = "system" then
        match pyGet kvs "content" with
        | some (.str c) => some c
        | _ => Option.none
      else Option.none
    | _ => Option.none
  | _ => Option.none

/-- Contents of the system-role dicts of a message list, in order (used to
state the merged-system-message property). -/
def systemContents (ms : List PyVal) : List String :=
  ms.filterMap systemContentOf

/-- Shape of every dict produced by `_convert_message_to_dict`: it is a
dict, and when its role is the string `"system"` its content is a
string. -/
def convShaped (m : PyVal) : Prop :=
  ∃ kvs, m = PyVal.dict kvs ∧
    (∀ r, pyGet kvs "role" = some (PyVal.str r) → r = "system" →
      ∃ c, pyGet kvs "content" = some (PyVal.str c))

/-- The tool-call identifiers appearing across one assembled result, in
order of generation and tool call (a non-dict entry or an entry without an
`id` key contributes `Option.none`). -/
def resultToolCallIds (r : ChatResultM) : List (Option PyVal) :=
  r.generations.flatMap fun g =>
    g.message.tool_calls.map fun tc =>
      match tc with
      | .dict kvs => pyGet kvs "id"
      | _ => Option.none

/-- The C5 uniqueness property as claimed: no two tool calls of one
assembled result share an identifier. -/
def idsPairwiseDistinct (r : ChatResultM) : Prop :=
  (resultToolCallIds r).Pairwise (· ≠ ·)

theorem pyGet_pySet_self (d : List (String × PyVal)) (k : String) (v : PyVal) :
    pyGet (pySet d k v) k = some v := by
  induction d with
  | nil => simp [pySet, pyGet]
  | cons kv rest ih =>
    by_cases h : kv.1 = k
    · simp [pySet, pyGet, h]
    · simp [pySet, pyGet, h, ih]

theorem pyGet_pySet_ne (d : List (String × PyVal)) (k k2 : String) (v : PyVal)
    (h : k ≠ k2) : pyGet (pySet d k v) k2 = pyGet d k2 := by
  induction d with
  | nil => simp [pySet, pyGet, h]
  | cons kv rest ih =>
    by_cases h2 : kv.1 = k
    · simp [pySet, pyGet, h2, h]
    · simp [pySet, pyGet, h2, ih]

/-- Claim C10: the five documented verdicts of `_is_valid_tool_call_format`:
a dict whose `args` contains `query` is valid, a one-element list wrapping
such a dict is valid, a dict with empty `args` is not, a dict without
`args` is not, and every two-element list is rejected regardless of its
contents. -/
theorem claim_C10 :
    _is_valid_tool_call_format
      (PyVal.dict [("args", PyVal.dict [("query", PyVal.str "x")]),
                   ("name", PyVal.str "t")]) = true
    ∧ _is_valid_tool_call_format
        (PyVal.list [PyVal.dict [("args", PyVal.dict [("query", PyVal.str "x")]),
                                 ("name", PyVal.str "t")]]) = true
    ∧ _is_valid_tool_call_format
        (PyVal.dict [("args", PyVal.dict []), ("name", PyVal.str "t")]) = false
    ∧ _is_valid_tool_call_format (PyVal.dict [("name", PyVal.str "t")]) = false
    ∧ ∀ a b : PyVal, _is_valid_tool_call_format (PyVal.list [a, b]) = false :=
  ⟨rfl, rfl, rfl, rfl, fun _ _ => rfl⟩

/-- Claim C1: whenever message-dict creation succeeds and `kwargs` carries
no `tools` entry, the prompt string dispatched to the provider is exactly
`"[]"` — `json.dumps` of the never-populated `new_prompt` list — for every
input message list. -/
theorem claim_C1 (selfParams kwargsParams : List (String × PyVal))
    (messages : List BMsg) (stop : Option (List String))
    (out : List PyVal × List (String × PyVal))
    (h : _create_message_dicts selfParams kwargsParams messages stop = .ok out) :
    generatePromptArg selfParams kwargsParams messages stop Option.none
      = .ok "[]" := by
  obtain ⟨md, ps⟩ := out
  unfold generatePromptArg
  rw [h]
  rfl

theorem witness_C1 :
    _create_message_dicts [] [] [BMsg.human "hi" []] Option.none
        = .ok ([PyVal.dict [("role", PyVal.str "user"),
                            ("content", PyVal.str "hi")]], [])
    ∧ generatePromptArg [] [] [BMsg.human "hi" []] Option.none Option.none
        = .ok "[]" :=
  ⟨rfl, claim_C1 [] [] [BMsg.human "hi" []] Option.none _ rfl⟩

/-- Claim C7 (code bug): the round trip
`_convert_dict_to_message([_convert_message_to_dict(m)])` does not
reconstruct the message — `_convert_dict_to_message` calls `json.loads` on
each list element, which requires a string and raises `TypeError` on the
dict that `_convert_message_to_dict` produces. -/
theorem claim_C7 :
    _convert_dict_to_message [_convert_message_to_dict (BMsg.system "hi" [])]
      = .error "TypeError: the JSON object must be str" := rfl

/-- Claim C3 (code bug): on the single-dict shape `_post_processing` emits
the assistant message with empty content and the id-stamped tool call, but
on the one-element-list shape the `if`/`elif` slip in `_tool_calling`
leaves the unwrapped dict in place, the loop iterates over its keys, and
`tool.update` raises `AttributeError` on a string. -/
theorem claim_C3 :
    _post_processing
        ⟨"[\x7b\"args\": \x7b\"query\": \"q\"\x7d, \"name\": \"search\"\x7d]",
         Option.none, Option.none, Option.none⟩ "abc"
      = .error "AttributeError: object has no attribute update"
    ∧ _post_processing
        ⟨"\x7b\"args\": \x7b\"query\": \"q\"\x7d, \"name\": \"search\"\x7d",
         Option.none, Option.none, Option.none⟩ "abc"
      = .ok ⟨"", [PyVal.dict [("args", PyVal.dict [("query", PyVal.str "q")]),
                              ("name", PyVal.str "search"),
                              ("id", PyVal.str "abc")]], Option.none⟩ :=
  ⟨rfl, rfl⟩

/-- Claim C4 counterexample: a response whose `error` key holds the falsy
empty string is NOT rejected — `_create_chat_result` builds a generation
from `results`, refuting the claim that any present `error` key fails. -/
theorem counterexample_C4 :
    ∃ r, _create_chat_result
        ⟨some (PyVal.str ""),
         [⟨"hello", Option.none, Option.none, Option.none⟩], Option.none⟩
        "cid" "m" = .ok r :=
  ⟨_, rfl⟩

/-- Claim C4 as amended: `_create_chat_result` fails (surfacing the error
value) exactly when the `error` entry is truthy; falsy values such as `""`,
`0` or `null` are not rejected. -/
theorem claim_C4 (response : RespModel) (call_id model_id : String)
    (h : truthy (response.error.getD PyVal.none) = true) :
    _create_chat_result response call_id model_id
      = .error ("ValueError: " ++ pyStr (response.error.getD PyVal.none)) := by
  simp [_create_chat_result, h]

theorem witness_C4 :
    _create_chat_result ⟨some (PyVal.str "boom"), [], Option.none⟩ "c" "m"
      = .error "ValueError: boom" :=
  claim_C4 ⟨some (PyVal.str "boom"), [], Option.none⟩ "c" "m" rfl

theorem remove_tags_not_json (s : String)
    (hjson : pyJsonLoads (pyStrip (pyReplace s tagsToRemove "")) = Option.none) :
    remove_tags_and_parse s
      = PyVal.str (pyReplace (pyStrip (pyReplace s tagsToRemove "")) "```" "") := by
  simp only [remove_tags_and_parse, _is_json, hjson]
  rfl

/-- Claim C8 as amended: for raw text whose tag-stripped form does not
parse as JSON AND whose fence-stripped form does not pass the tool-call
shape check, classification never fails and returns a plain assistant
message whose content is the `[A-Za-z0-9\s,.-]`-filtered text with line
breaks removed first.  (The original claim omitted the second condition:
see `counterexample_C8`.) -/
theorem claim_C8 (res : ResultEntry) (cid : String)
    (hjson : pyJsonLoads (pyStrip (pyReplace res.generated_text tagsToRemove ""))
      = Option.none)
    (hshape : _is_valid_tool_call_format
        (PyVal.str (pyReplace
          (pyStrip (pyReplace res.generated_text tagsToRemove "")) "```" ""))
      = false) :
    _post_processing res cid
      = .ok ⟨joinFindall (pyReplace (pyReplace
              (pyStrip (pyReplace res.generated_text tagsToRemove "")) "```" "")
              "\n" ""), [], Option.none⟩
    ∧ ∀ c ∈ (joinFindall (pyReplace (pyReplace
              (pyStrip (pyReplace res.generated_text tagsToRemove "")) "```" "")
              "\n" "")).data, isContentChar c = true := by
  constructor
  · simp only [_post_processing, remove_tags_not_json res.generated_text hjson,
      hshape]
    rfl
  · intro c hc
    exact (List.mem_filter.mp hc).2

/-- Claim C8 counterexample: raw text wrapped in markdown fences is not
JSON after tag stripping (so the claim applies), yet classification emits
a TOOL-CALL message with empty content and non-empty `tool_calls` instead
of a plain filtered-text message, because the shape check runs on the
fence-stripped string. -/
theorem counterexample_C8 :
    pyJsonLoads (pyStrip (pyReplace
        "```\x7b\"args\": \x7b\"query\": \"q\"\x7d, \"name\": \"t\"\x7d```"
        tagsToRemove "")) = Option.none
    ∧ ∃ msg, _post_processing
        ⟨"```\x7b\"args\": \x7b\"query\": \"q\"\x7d, \"name\": \"t\"\x7d```",
         Option.none, Option.none, Option.none⟩ "abc" = .ok msg
        ∧ msg.tool_calls ≠ [] ∧ msg.content = "" := by
  refine ⟨rfl, ⟨"", [PyVal.dict [("args", PyVal.dict [("query", PyVal.str "q")]),
                                 ("name", PyVal.str "t"),
                                 ("id", PyVal.str "abc")]], Option.none⟩,
          rfl, ?_, rfl⟩
  simp

theorem witness_C8 :
    _post_processing ⟨"hi! ```ok``` \x7b?", Option.none, Option.none, Option.none⟩ "c"
      = .ok ⟨joinFindall (pyReplace (pyReplace
              (pyStrip (pyReplace "hi! ```ok``` \x7b?" tagsToRemove "")) "```" "")
              "\n" ""), [], Option.none⟩
    ∧ ∀ c ∈ (joinFindall (pyReplace (pyReplace
              (pyStrip (pyReplace "hi! ```ok``` \x7b?" tagsToRemove "")) "```" "")
              "\n" "")).data, isContentChar c = true :=
  claim_C8 ⟨"hi! ```ok``` \x7b?", Option.none, Option.none, Option.none⟩ "c" rfl rfl

theorem stringData_append (s t : String) : (s ++ t).data = s.data ++ t.data := by
  cases s; cases t; rfl

theorem stringAppend_assoc (a b c : String) : a ++ b ++ c = a ++ (b ++ c) := by
  cases a with
  | mk la =>
    cases b with
    | mk lb =>
      cases c with
      | mk lc =>
        show String.mk (la ++ lb ++ lc) = String.mk (la ++ (lb ++ lc))
        rw [List.append_assoc]

theorem joinLines_append_last (xs : List String) (y : String) :
    ∃ t, joinLines (xs ++ [y]) = t ++ y := by
  induction xs with
  | nil =>
    refine ⟨"", ?_⟩
    cases y with
    | mk ly => rfl
  | cons x xs ih =>
    cases xs with
    | nil => exact ⟨x ++ "\n", rfl⟩
    | cons a as =>
      obtain ⟨t, ht⟩ := ih
      refine ⟨x ++ "\n" ++ t, ?_⟩
      show x ++ "\n" ++ joinLines ((a :: as) ++ [y]) = x ++ "\n" ++ t ++ y
      rw [ht, stringAppend_assoc (x ++ "\n") t y]

/-- Claim C6 as amended: the granite and llama-3-1 dialects append the
final assistant marker `"<|assistant|>\n"` after the rendered messages and
unmatched model ids fall back to the generic renderer, which ends in the
rendered trailing empty assistant turn (`"AI: "`); the llama-2 bracket
dialect appends nothing after the rendered messages (on an empty message
sequence its prompt is the empty string). -/
theorem claim_C6 (model_id : String) (messages : List (String × String)) :
    ((model_id = "ibm/granite-13b-chat-v1" ∨ model_id = "ibm/granite-13b-chat-v2"
        ∨ model_id = "meta-llama/llama-3-1-70b-instruct") →
      ∃ t, _create_chat_prompt model_id messages = t ++ "<|assistant|>\n")
    ∧ (model_id ∉ ["ibm/granite-13b-chat-v1", "ibm/granite-13b-chat-v2",
        "meta-llama/llama-2-13b-chat", "meta-llama/llama-2-70b-chat",
        "meta-llama/llama-3-1-70b-instruct"] →
      ∃ t, _create_chat_prompt model_id messages = t ++ "AI: ")
    ∧ _create_chat_prompt "meta-llama/llama-2-13b-chat" [] = "" := by
  refine ⟨?_, ?_, rfl⟩
  · rintro (h | h | h) <;> subst h <;> exact ⟨_, rfl⟩
  · intro h
    simp only [List.mem_cons, List.mem_singleton, not_or] at h
    obtain ⟨h1, h2, h3, h4, h5⟩ := h
    have hfall : _create_chat_prompt model_id messages
        = bufferString (messages ++ [("assistant", "")]) := by
      simp [_create_chat_prompt, h1, h2, h3, h4, h5]
    rw [hfall]
    unfold bufferString
    rw [List.map_append]
    obtain ⟨t, ht⟩ :=
      joinLines_append_last (messages.map fun m => bufferRole m.1 ++ ": " ++ m.2)
        (bufferRole "assistant" ++ ": " ++ "")
    refine ⟨t, ?_⟩
    have hai : bufferRole "assistant" ++ ": " ++ "" = "AI: " := rfl
    rw [hai] at ht
    exact ht

/-- Claim C6 counterexample: the llama-2 dialect appends no model-specific
final assistant marker — no fixed non-empty string terminates its prompts
for every message sequence (the empty sequence renders to the empty
string). -/
theorem counterexample_C6 :
    ¬ ∃ marker : String, marker ≠ ""
      ∧ ∀ messages, ∃ t,
          _create_chat_prompt "meta-llama/llama-2-13b-chat" messages
            = t ++ marker := by
  rintro ⟨m, hne, hall⟩
  obtain ⟨t, ht⟩ := hall []
  have h0 : _create_chat_prompt "meta-llama/llama-2-13b-chat" [] = "" := rfl
  rw [h0] at ht
  have hd := congrArg String.data ht
  rw [stringData_append] at hd
  have hm : m.data = [] := (List.append_eq_nil.mp hd.symm).2
  apply hne
  cases m with
  | mk lm =>
    simp only [String.data] at hm
    rw [hm]

theorem witness_C6 :
    (∃ t, _create_chat_prompt "ibm/granite-13b-chat-v1" [("user", "hi")]
        = t ++ "<|assistant|>\n")
    ∧ (∃ t, _create_chat_prompt "mistralai/mistral-large" [("user", "hi")]
        = t ++ "AI: ")
    ∧ _create_chat_prompt "meta-llama/llama-2-13b-chat" [] = "" :=
  ⟨(claim_C6 "ibm/granite-13b-chat-v1" [("user", "hi")]).1 (Or.inl rfl),
   (claim_C6 "mistralai/mistral-large" [("user", "hi")]).2.1 (by decide),
   (claim_C6 "meta-llama/llama-2-13b-chat" []).2.2⟩

theorem okOfBind {α β : Type} (x : Except String α) (f : α → Except String β)
    (b : β) (h : x.bind f = .ok b) : ∃ a, x = .ok a ∧ f a = .ok b := by
  rcases x with e | a
  · simp [Except.bind] at h
  · exact ⟨a, rfl, h⟩

theorem okOfMap {α β : Type} (x : Except String α) (f : α → β)
    (b : β) (h : x.map f = .ok b) : ∃ a, x = .ok a ∧ f a = b := by
  rcases x with e | a
  · simp [Except.map] at h
  · refine ⟨a, rfl, ?_⟩
    simpa [Except.map] using h

theorem updateWithId_mem : ∀ (items : List PyVal) (cid : String) (tcs : List PyVal),
    updateWithId items cid = .ok tcs →
    ∀ tc ∈ tcs, ∃ kvs, tc = PyVal.dict kvs
      ∧ pyGet kvs "id" = some (PyVal.str cid) := by
  intro items
  induction items with
  | nil =>
    intro cid tcs h tc htc
    simp [updateWithId] at h
    subst h
    simp at htc
  | cons hd tl ih =>
    intro cid tcs h tc htc
    cases hd with
    | dict kvs =>
      cases hrec : updateWithId tl cid with
      | error e => simp [updateWithId, hrec] at h
      | ok rest =>
        simp [updateWithId, hrec] at h
        subst h
        rcases List.mem_cons.mp htc with h1 | h2
        · exact ⟨pySet kvs "id" (PyVal.str cid), h1, pyGet_pySet_self kvs "id" _⟩
        · exact ih cid rest hrec tc h2
    | none => simp [updateWithId] at h
    | bool b => simp [updateWithId] at h
    | int n => simp [updateWithId] at h
    | float m e => simp [updateWithId] at h
    | str s => simp [updateWithId] at h
    | list xs => simp [updateWithId] at h

theorem tool_calling_ids (raw : PyVal) (cid : String) (msg : AIMsg)
    (h : _tool_calling raw cid = .ok msg) :
    ∀ tc ∈ msg.tool_calls, ∃ kvs, tc = PyVal.dict kvs
      ∧ pyGet kvs "id" = some (PyVal.str cid) := by
  simp only [_tool_calling] at h
  obtain ⟨p, -, h⟩ := okOfBind _ _ _ h
  obtain ⟨n, -, h⟩ := okOfBind _ _ _ h
  obtain ⟨items, -, h⟩ := okOfBind _ _ _ h
  obtain ⟨tcs, hupd, h⟩ := okOfMap _ _ _ h
  have hmsg : msg = ⟨"", tcs, Option.none⟩ := h.symm
  subst hmsg
  exact updateWithId_mem items cid tcs hupd

theorem post_processing_tool_ids (res : ResultEntry) (cid : String) (msg : AIMsg)
    (hv : _is_valid_tool_call_format (remove_tags_and_parse res.generated_text)
      = true)
    (h : _post_processing res cid = .ok msg) :
    ∀ tc ∈ msg.tool_calls, ∃ kvs, tc = PyVal.dict kvs
      ∧ pyGet kvs "id" = some (PyVal.str cid) := by
  simp only [_post_processing, hv, if_true] at h
  exact tool_calling_ids _ cid msg h

theorem buildGens_tool_ids : ∀ (rs : List ResultEntry) (cid : String) (sg si : Int)
    (out : List GenM × Int × Int),
    (∀ r ∈ rs,
      _is_valid_tool_call_format (remove_tags_and_parse r.generated_text) = true) →
    buildGens cid sg si rs = .ok out →
    ∀ g ∈ out.1, ∀ tc ∈ g.message.tool_calls,
      ∃ kvs, tc = PyVal.dict kvs ∧ pyGet kvs "id" = some (PyVal.str cid) := by
  intro rs
  induction rs with
  | nil =>
    intro cid sg si out hv h g hg
    simp [buildGens] at h
    rw [← h] at hg
    simp at hg
  | cons r rest ih =>
    intro cid sg si out hv h g hg tc htc
    cases hpost : _post_processing r cid with
    | error e => simp [buildGens, hpost] at h
    | ok message =>
      cases hrec : buildGens cid (sg + (r.generated_token_count.getD 0))
          (si + (r.input_token_count.getD 0)) rest with
      | error e => simp [buildGens, hpost, hrec] at h
      | ok out2 =>
        simp only [buildGens, hpost, hrec] at h
        have h2 := Except.ok.inj h
        rw [← h2] at hg
        rcases List.mem_cons.mp hg with h1 | h2
        · subst h1
          have htc2 : tc ∈ message.tool_calls := by
            simpa [apply_ite AIMsg.tool_calls] using htc
          exact post_processing_tool_ids r cid message
            (hv r (List.mem_cons_self r rest)) hpost tc htc2
        · exact ih cid _ _ out2
            (fun r2 hr2 => hv r2 (List.mem_cons_of_mem r hr2)) hrec g h2 tc htc

/-- Claim C5 as amended: one call identifier is generated per response and
`_tool_calling` stamps it onto EVERY tool call, so within one assembled
result all classifier-produced tool-call identifiers are equal to that
single per-response id — they are shared, not pairwise distinct (see
`counterexample_C5`). -/
theorem claim_C5 (response : RespModel) (call_id model_id : String)
    (result : ChatResultM)
    (hv : ∀ r ∈ response.results,
      _is_valid_tool_call_format (remove_tags_and_parse r.generated_text) = true)
    (hok : _create_chat_result response call_id model_id = .ok result) :
    ∀ g ∈ result.generations, ∀ tc ∈ g.message.tool_calls,
      ∃ kvs, tc = PyVal.dict kvs ∧ pyGet kvs "id" = some (PyVal.str call_id) := by
  by_cases herr : truthy (response.error.getD PyVal.none)
  · simp [_create_chat_result, herr] at hok
  · cases hb : buildGens call_id 0 0 response.results with
    | error e => simp [_create_chat_result, herr, hb] at hok
    | ok out =>
      simp only [_create_chat_result, herr, hb, Bool.false_eq_true,
        if_false] at hok
      have h2 := Except.ok.inj hok
      intro g hg
      have hg2 : g ∈ out.1 := by rw [← h2] at hg; exact hg
      exact buildGens_tool_ids response.results call_id 0 0 out hv hb g hg2

theorem counterexample_C5 :
    ∃ result, _create_chat_result
        ⟨Option.none,
         [⟨"\x7b\"args\": \x7b\"query\": \"q\"\x7d, \"name\": \"s\"\x7d",
           Option.none, Option.none, Option.none⟩,
          ⟨"\x7b\"args\": \x7b\"query\": \"q\"\x7d, \"name\": \"s\"\x7d",
           Option.none, Option.none, Option.none⟩],
         Option.none⟩ "abc" "m" = .ok result
      ∧ ¬ idsPairwiseDistinct result := by
  refine ⟨⟨[⟨⟨"", [PyVal.dict [("args", PyVal.dict [("query", PyVal.str "q")]),
                               ("name", PyVal.str "s"),
                               ("id", PyVal.str "abc")]], Option.none⟩,
             Option.none⟩,
            ⟨⟨"", [PyVal.dict [("args", PyVal.dict [("query", PyVal.str "q")]),
                               ("name", PyVal.str "s"),
                               ("id", PyVal.str "abc")]], Option.none⟩,
             Option.none⟩], 0, 0, "m", ""⟩, rfl, ?_⟩
  intro hp
  unfold idsPairwiseDistinct at hp
  have hids : resultToolCallIds
      ⟨[⟨⟨"", [PyVal.dict [("args", PyVal.dict [("query", PyVal.str "q")]),
                           ("name", PyVal.str "s"),
                           ("id", PyVal.str "abc")]], Option.none⟩,
         Option.none⟩,
        ⟨⟨"", [PyVal.dict [("args", PyVal.dict [("query", PyVal.str "q")]),
                           ("name", PyVal.str "s"),
                           ("id", PyVal.str "abc")]], Option.none⟩,
         Option.none⟩], 0, 0, "m", ""⟩
      = [some (PyVal.str "abc"), some (PyVal.str "abc")] := rfl
  rw [hids] at hp
  cases hp with
  | cons h1 _ => exact h1 (some (PyVal.str "abc")) (List.mem_singleton.mpr rfl) rfl

theorem witness_C5 :
    ∃ kvs, PyVal.dict [("args", PyVal.dict [("query", PyVal.str "q")]),
                       ("name", PyVal.str "s"), ("id", PyVal.str "w1")]
        = PyVal.dict kvs
      ∧ pyGet kvs "id" = some (PyVal.str "w1") :=
  claim_C5
    ⟨Option.none,
     [⟨"\x7b\"args\": \x7b\"query\": \"q\"\x7d, \"name\": \"s\"\x7d",
       Option.none, Option.none, Option.none⟩],
     Option.none⟩ "w1" "m"
    ⟨[⟨⟨"", [PyVal.dict [("args", PyVal.dict [("query", PyVal.str "q")]),
                         ("name", PyVal.str "s"),
                         ("id", PyVal.str "w1")]], Option.none⟩,
       Option.none⟩], 0, 0, "m", ""⟩
    (fun r hr => by rw [List.mem_singleton] at hr; subst hr; rfl) rfl
    ⟨⟨"", [PyVal.dict [("args", PyVal.dict [("query", PyVal.str "q")]),
                       ("name", PyVal.str "s"),
                       ("id", PyVal.str "w1")]], Option.none⟩, Option.none⟩
    (List.mem_singleton.mpr rfl)
    (PyVal.dict [("args", PyVal.dict [("query", PyVal.str "q")]),
                 ("name", PyVal.str "s"), ("id", PyVal.str "w1")])
    (List.mem_singleton.mpr rfl)

theorem pyGet_blank_ne (d : List (String × PyVal)) (k : String)
    (h : k ≠ "content") : pyGet (blankContentToNone d) k = pyGet d k := by
  unfold blankContentToNone
  cases hq : pyGet d "content" with
  | none => rfl
  | some v =>
    cases v with
    | str c =>
      by_cases hc : c = ""
      · simp [hc, pyGet_pySet_ne _ _ _ _ (Ne.symm h)]
      · simp [hc]
    | none => rfl
    | bool b => rfl
    | int n => rfl
    | float m e => rfl
    | list xs => rfl
    | dict kvs => rfl

theorem pyGet_pySet_name_role (d : List (String × PyVal)) (v : PyVal) :
    pyGet (pySet d "name" v) "role" = pyGet d "role" :=
  pyGet_pySet_ne d "name" "role" v (by decide)

theorem pyGet_pySet_toolcalls_role (d : List (String × PyVal)) (v : PyVal) :
    pyGet (pySet d "tool_calls" v) "role" = pyGet d "role" :=
  pyGet_pySet_ne d "tool_calls" "role" v (by decide)

theorem pyGet_pySet_fc_role (d : List (String × PyVal)) (v : PyVal) :
    pyGet (pySet d "function_call" v) "role" = pyGet d "role" :=
  pyGet_pySet_ne d "function_call" "role" v (by decide)

theorem pyGet_blank_role (d : List (String × PyVal)) :
    pyGet (blankContentToNone d) "role" = pyGet d "role" :=
  pyGet_blank_ne d "role" (by decide)

theorem pyGet_pySet_name_content (d : List (String × PyVal)) (v : PyVal) :
    pyGet (pySet d "name" v) "content" = pyGet d "content" :=
  pyGet_pySet_ne d "name" "content" v (by decide)

theorem ai_dict_role (c : String) (tcs : List PyVal)
    (ak : List (String × PyVal)) :
    ∃ kvs, _convert_message_to_dict (BMsg.ai c tcs ak) = PyVal.dict kvs
      ∧ pyGet kvs "role" = some (PyVal.str "assistant") := by
  simp only [_convert_message_to_dict, BMsg.ak]
  cases h1 : pyGet ak "function_call" <;>
    cases h2 : pyGet ak "tool_calls" <;>
      cases h3 : pyGet ak "name" <;>
        exact ⟨_, rfl, by
          simp [pyGet_pySet_name_role, pyGet_pySet_toolcalls_role,
            pyGet_pySet_fc_role, pyGet_blank_role, pyGet]⟩

theorem conv_shaped (msg : BMsg) : convShaped (_convert_message_to_dict msg) := by
  cases msg with
  | ai c tcs ak =>
    obtain ⟨kvs, heq, hrole⟩ := ai_dict_role c tcs ak
    rw [heq]
    refine ⟨kvs, rfl, fun r hr hsys => ?_⟩
    rw [hrole] at hr
    have : r = "assistant" := (PyVal.str.inj (Option.some.inj hr)).symm
    rw [this] at hsys
    exact absurd hsys (by decide)
  | system c ak =>
    simp only [_convert_message_to_dict, BMsg.ak]
    cases hn : pyGet ak "name" with
    | none => exact ⟨_, rfl, fun r hr hsys => ⟨c, rfl⟩⟩
    | some n =>
      exact ⟨_, rfl, fun r hr hsys =>
        ⟨c, by rw [pyGet_pySet_name_content]; rfl⟩⟩
  | human c ak =>
    simp only [_convert_message_to_dict, BMsg.ak]
    cases hn : pyGet ak "name" with
    | none => exact ⟨_, rfl, fun r hr hsys => ⟨c, rfl⟩⟩
    | some n =>
      exact ⟨_, rfl, fun r hr hsys =>
        ⟨c, by rw [pyGet_pySet_name_content]; rfl⟩⟩
  | chat role c ak =>
    simp only [_convert_message_to_dict, BMsg.ak]
    cases hn : pyGet ak "name" with
    | none => exact ⟨_, rfl, fun r hr hsys => ⟨c, rfl⟩⟩
    | some n =>
      exact ⟨_, rfl, fun r hr hsys =>
        ⟨c, by rw [pyGet_pySet_name_content]; rfl⟩⟩
  | function c name ak =>
    simp only [_convert_message_to_dict, BMsg.ak]
    cases hn : pyGet ak "name" with
    | none => exact ⟨_, rfl, fun r hr hsys => ⟨c, rfl⟩⟩
    | some n =>
      exact ⟨_, rfl, fun r hr hsys =>
        ⟨c, by rw [pyGet_pySet_name_content]; rfl⟩⟩
  | tool c tcid ak =>
    simp only [_convert_message_to_dict, BMsg.ak]
    cases hn : pyGet ak "name" with
    | none => exact ⟨_, rfl, fun r hr hsys => ⟨c, rfl⟩⟩
    | some n =>
      exact ⟨_, rfl, fun r hr hsys =>
        ⟨c, by rw [pyGet_pySet_name_content]; rfl⟩⟩

theorem sysLoop_shaped : ∀ (ds : List PyVal), (∀ m ∈ ds, convShaped m) →
    ∀ acc, sysLoop ds acc
      = .ok (List.foldl (fun a c => a ++ c ++ reminderText) acc
          (systemContents ds)) := by
  intro ds
  induction ds with
  | nil => intro _ acc; rfl
  | cons m rest ih =>
    intro hshape acc
    obtain ⟨kvs, rfl, hcnt⟩ := hshape m (List.mem_cons_self m rest)
    have htail : ∀ m2 ∈ rest, convShaped m2 :=
      fun m2 hm2 => hshape m2 (List.mem_cons_of_mem _ hm2)
    cases hrole : pyGet kvs "role" with
    | none =>
      simp [sysLoop, hrole, systemContents, List.filterMap_cons, systemContentOf,
        ih htail]
    | some v =>
      cases v with
      | str r =>
        by_cases hr : r = "system"
        · subst hr
          obtain ⟨c, hc⟩ := hcnt "system" hrole rfl
          simp [sysLoop, hrole, hc, systemContents, List.filterMap_cons,
            systemContentOf, ih htail]
        · simp [sysLoop, hrole, hr, systemContents, List.filterMap_cons,
            systemContentOf, ih htail]
      | none =>
        simp [sysLoop, hrole, systemContents, List.filterMap_cons,
          systemContentOf, ih htail]
      | bool b =>
        simp [sysLoop, hrole, systemContents, List.filterMap_cons,
          systemContentOf, ih htail]
      | int n =>
        simp [sysLoop, hrole, systemContents, List.filterMap_cons,
          systemContentOf, ih htail]
      | float mm e =>
        simp [sysLoop, hrole, systemContents, List.filterMap_cons,
          systemContentOf, ih htail]
      | list xs =>
        simp [sysLoop, hrole, systemContents, List.filterMap_cons,
          systemContentOf, ih htail]
      | dict kvs2 =>
        simp [sysLoop, hrole, systemContents, List.filterMap_cons,
          systemContentOf, ih htail]

theorem toolsBranch_structure (msgs : List BMsg) (tools tds : List PyVal)
    (hb : buildToolDescriptions tools = .ok tds) :
    toolsBranchNewPrompt (msgs.map _convert_message_to_dict) tools =
      .ok (PyVal.dict [("role", PyVal.str "system"),
            ("content", PyVal.str
              (List.foldl (fun a c => a ++ c ++ reminderText) ""
                (systemContents (msgs.map _convert_message_to_dict)
                  ++ [syntheticContent tds])))]
          :: (msgs.map _convert_message_to_dict).filter
              fun m => !isSystemDict m) := by
  simp only [toolsBranchNewPrompt, hb]
  have hsynth : convShaped (PyVal.dict
      [("role", PyVal.str "system"),
       ("content", PyVal.str (syntheticContent tds))]) :=
    ⟨_, rfl, fun r hr hsys => ⟨syntheticContent tds, rfl⟩⟩
  have hshape : ∀ m ∈ msgs.map _convert_message_to_dict
      ++ [PyVal.dict [("role", PyVal.str "system"),
                      ("content", PyVal.str (syntheticContent tds))]],
      convShaped m := by
    intro m hm
    rcases List.mem_append.mp hm with h1 | h2
    · obtain ⟨msg, _, rfl⟩ := List.mem_map.mp h1
      exact conv_shaped msg
    · rw [List.mem_singleton.mp h2]
      exact hsynth
  rw [sysLoop_shaped _ hshape ""]
  have hsys_app : systemContents (msgs.map _convert_message_to_dict
      ++ [PyVal.dict [("role", PyVal.str "system"),
                      ("content", PyVal.str (syntheticContent tds))]])
      = systemContents (msgs.map _convert_message_to_dict)
        ++ [syntheticContent tds] := by
    unfold systemContents
    rw [List.filterMap_append]
    rfl
  rw [hsys_app]
  have hfilter : (msgs.map _convert_message_to_dict
      ++ [PyVal.dict [("role", PyVal.str "system"),
                      ("content", PyVal.str (syntheticContent tds))]]).filter
        (fun m => !isSystemDict m)
      = (msgs.map _convert_message_to_dict).filter
          (fun m => !isSystemDict m) := by
    rw [List.filter_append]
    simp [isSystemDict, pyGet]
  rw [hfilter]

theorem collapseAux_cons_nonspace (b : Bool) (c : Char) (l : List Char)
    (h : isPySpace c = false) :
    collapseAux b (c :: l) = c :: collapseAux false l := by
  simp [collapseAux, h]

theorem stripEnd_cons_nonspace (c : Char) (l : List Char)
    (h : isPySpace c = false) : stripEnd (c :: l) = c :: stripEnd l := by
  cases hse : stripEnd l with
  | nil => simp [stripEnd, hse, h]
  | cons a as => simp [stripEnd, hse]

set_option maxRecDepth 4000 in
theorem synthetic_head (tds : List PyVal) :
    ∃ l, (syntheticContent tds).data = 'G' :: l := by
  have hG : isPySpace 'G' = false := rfl
  have htip : ∃ r, (toolInstructionPrompt tds).data = 'G' :: r := by
    refine ⟨promptLit1.data.tail ++ ((pyRepr (PyVal.list tds)).data
      ++ (promptLit2.data ++ ((pyRepr TOOL_SCHEMA).data ++ promptLit3.data))), ?_⟩
    unfold toolInstructionPrompt
    simp only [stringData_append]
    rw [show promptLit1.data = 'G' :: promptLit1.data.tail from rfl]
    simp [List.append_assoc]
  obtain ⟨r, hr⟩ := htip
  have h2 : (pySubWs (toolInstructionPrompt tds)).data
      = 'G' :: collapseAux false r := by
    show collapseAux false (toolInstructionPrompt tds).data = _
    rw [hr, collapseAux_cons_nonspace false 'G' r hG]
  refine ⟨stripEnd (collapseAux false r), ?_⟩
  show stripEnd ((pySubWs (toolInstructionPrompt tds)).data.dropWhile
    fun c => isPySpace c) = _
  rw [h2, List.dropWhile_cons]
  simp [hG, stripEnd_cons_nonspace 'G' _ hG]

/-- Claim C2 as amended: with tools supplied, the dispatched message list is
exactly one system message first, followed by the non-system input messages
in original order; its content is the concatenation of the ORIGINAL system
contents in their original order, each followed by the reinforcing reminder
sentence, with the synthetic tool-instruction content (also followed by the
reminder) LAST — not first as originally claimed (see
`counterexample_C2`): the synthetic system message is appended after the
input messages before the merge loop runs. -/
theorem claim_C2 (msgs : List BMsg) (tools tds : List PyVal)
    (hb : buildToolDescriptions tools = .ok tds) :
    toolsBranchNewPrompt (msgs.map _convert_message_to_dict) tools =
      .ok (PyVal.dict [("role", PyVal.str "system"),
            ("content", PyVal.str
              (List.foldl (fun a c => a ++ c ++ reminderText) ""
                (systemContents (msgs.map _convert_message_to_dict)
                  ++ [syntheticContent tds])))]
          :: (msgs.map _convert_message_to_dict).filter
              fun m => !isSystemDict m) :=
  toolsBranch_structure msgs tools tds hb

/-- Claim C2 counterexample: with one original system message `"ZEBRA"` and
one tool, the merged system content does not start with the synthetic
tool-instruction content — no suffix completes it that way, because the
code puts the original system contents first and the synthetic instruction
last. -/
theorem counterexample_C2 :
    ¬ ∃ suffix : String,
      toolsBranchNewPrompt
          [_convert_message_to_dict (BMsg.system "ZEBRA" [])]
          [PyVal.dict [("function", PyVal.dict
            [("name", PyVal.str "search"), ("description", PyVal.str "d"),
             ("parameters", PyVal.dict [("properties",
               PyVal.dict [("query", PyVal.str "q")])])])]]
        = .ok [PyVal.dict [("role", PyVal.str "system"),
               ("content", PyVal.str (syntheticContent
                 [PyVal.dict [("name", PyVal.str "search"),
                              ("description", PyVal.str "d"),
                              ("args", PyVal.dict [("query", PyVal.str "q")])]]
                 ++ suffix))]] := by
  rintro ⟨suffix, h⟩
  have hact2 : toolsBranchNewPrompt
      [_convert_message_to_dict (BMsg.system "ZEBRA" [])]
      [PyVal.dict [("function", PyVal.dict
        [("name", PyVal.str "search"), ("description", PyVal.str "d"),
         ("parameters", PyVal.dict [("properties",
           PyVal.dict [("query", PyVal.str "q")])])])]]
      = .ok [PyVal.dict [("role", PyVal.str "system"),
             ("content", PyVal.str
               (List.foldl (fun a c => a ++ c ++ reminderText) ""
                 (["ZEBRA"] ++ [syntheticContent
                   [PyVal.dict [("name", PyVal.str "search"),
                                ("description", PyVal.str "d"),
                                ("args", PyVal.dict [("query", PyVal.str "q")])]]])))]] :=
    toolsBranch_structure [BMsg.system "ZEBRA" []]
      [PyVal.dict [("function", PyVal.dict
        [("name", PyVal.str "search"), ("description", PyVal.str "d"),
         ("parameters", PyVal.dict [("properties",
           PyVal.dict [("query", PyVal.str "q")])])])]]
      [PyVal.dict [("name", PyVal.str "search"),
                   ("description", PyVal.str "d"),
                   ("args", PyVal.dict [("query", PyVal.str "q")])]] rfl
  have heq := hact2.symm.trans h
  simp only [Except.ok.injEq, List.cons.injEq, PyVal.dict.injEq,
    PyVal.str.injEq, Prod.mk.injEq, List.cons_append, List.nil_append,
    List.foldl_cons, List.foldl_nil, and_true, true_and] at heq
  obtain ⟨γ, hγ⟩ := synthetic_head
    [PyVal.dict [("name", PyVal.str "search"), ("description", PyVal.str "d"),
                 ("args", PyVal.dict [("query", PyVal.str "q")])]]
  have hd := congrArg String.data heq
  simp only [stringData_append] at hd
  rw [hγ] at hd
  simp only [List.nil_append, List.cons_append, List.append_assoc] at hd
  have hhead := (List.cons.inj hd).1
  exact absurd hhead (by decide)

theorem witness_C2 :
    buildToolDescriptions
        [PyVal.dict [("function", PyVal.dict
          [("name", PyVal.str "find"), ("description", PyVal.str "dd"),
           ("parameters", PyVal.dict [("properties",
             PyVal.dict [("query", PyVal.str "qq")])])])]]
      = .ok [PyVal.dict [("name", PyVal.str "find"),
                         ("description", PyVal.str "dd"),
                         ("args", PyVal.dict [("query", PyVal.str "qq")])]]
    ∧ toolsBranchNewPrompt
        (List.map _convert_message_to_dict
          [BMsg.system "S1" [], BMsg.human "U" []])
        [PyVal.dict [("function", PyVal.dict
          [("name", PyVal.str "find"), ("description", PyVal.str "dd"),
           ("parameters", PyVal.dict [("properties",
             PyVal.dict [("query", PyVal.str "qq")])])])]]
      = .ok (PyVal.dict [("role", PyVal.str "system"),
              ("content", PyVal.str
                (List.foldl (fun a c => a ++ c ++ reminderText) ""
                  (systemContents (List.map _convert_message_to_dict
                      [BMsg.system "S1" [], BMsg.human "U" []])
                    ++ [syntheticContent
                        [PyVal.dict [("name", PyVal.str "find"),
                                     ("description", PyVal.str "dd"),
                                     ("args", PyVal.dict [("query", PyVal.str "qq")])]]])))]
            :: (List.map _convert_message_to_dict
                  [BMsg.system "S1" [], BMsg.human "U" []]).filter
                fun m => !isSystemDict m) :=
  ⟨rfl, claim_C2 [BMsg.system "S1" [], BMsg.human "U" []]
    [PyVal.dict [("function", PyVal.dict
      [("name", PyVal.str "find"), ("description", PyVal.str "dd"),
       ("parameters", PyVal.dict [("properties",
         PyVal.dict [("query", PyVal.str "qq")])])])]]
    [PyVal.dict [("name", PyVal.str "find"),
                 ("description", PyVal.str "dd"),
                 ("args", PyVal.dict [("query", PyVal.str "qq")])]] rfl⟩

theorem post_usage_none (res : ResultEntry) (cid : String) (m : AIMsg)
    (h : _post_processing res cid = .ok m) : m.usage_metadata = Option.none := by
  simp only [_post_processing] at h
  split at h
  · simp only [_tool_calling] at h
    obtain ⟨p, -, h⟩ := okOfBind _ _ _ h
    obtain ⟨n, -, h⟩ := okOfBind _ _ _ h
    obtain ⟨items, -, h⟩ := okOfBind _ _ _ h
    obtain ⟨tcs, -, h⟩ := okOfMap _ _ _ h
    subst h
    rfl
  · split at h
    · split at h
      · have := Except.ok.inj h
        subst this
        rfl
      · simp at h
    · have := Except.ok.inj h
      subst this
      rfl
    · simp at h

theorem prefixGenSum_succ_cons (r : ResultEntry) (rs : List ResultEntry)
    (n : Nat) : prefixGenSum (r :: rs) (n + 1)
      = r.generated_token_count.getD 0 + prefixGenSum rs n := by
  simp [prefixGenSum, List.take_succ_cons]

theorem prefixInSum_succ_cons (r : ResultEntry) (rs : List ResultEntry)
    (n : Nat) : prefixInSum (r :: rs) (n + 1)
      = r.input_token_count.getD 0 + prefixInSum rs n := by
  simp [prefixInSum, List.take_succ_cons]

theorem buildGens_usage : ∀ (rs : List ResultEntry) (cid : String) (sg si : Int)
    (out : List GenM × Int × Int), buildGens cid sg si rs = .ok out →
    out.1.length = rs.length
    ∧ (∀ (i : Nat) (g : GenM), out.1[i]? = some g →
        g.message.usage_metadata =
          (if (sg + prefixGenSum rs (i + 1)) + (si + prefixInSum rs (i + 1)) ≠ 0
           then
            some ⟨si + prefixInSum rs (i + 1), sg + prefixGenSum rs (i + 1),
                  (sg + prefixGenSum rs (i + 1)) + (si + prefixInSum rs (i + 1))⟩
           else Option.none))
    ∧ out.2.1 = sg + prefixGenSum rs rs.length
    ∧ out.2.2 = si + prefixInSum rs rs.length := by
  intro rs
  induction rs with
  | nil =>
    intro cid sg si out h
    simp only [buildGens] at h
    have h2 := Except.ok.inj h
    subst h2
    refine ⟨rfl, ?_, by simp [prefixGenSum], by simp [prefixInSum]⟩
    intro i g hg
    simp at hg
  | cons r rest ih =>
    intro cid sg si out h
    cases hpost : _post_processing r cid with
    | error e => simp [buildGens, hpost] at h
    | ok message =>
      cases hrec : buildGens cid (sg + (r.generated_token_count.getD 0))
          (si + (r.input_token_count.getD 0)) rest with
      | error e => simp [buildGens, hpost, hrec] at h
      | ok out2 =>
        simp only [buildGens, hpost, hrec] at h
        have h2 := Except.ok.inj h
        subst h2
        obtain ⟨ihlen, ihidx, ihg, ihi⟩ := ih cid _ _ out2 hrec
        refine ⟨?_, ?_, ?_, ?_⟩
        · simp [ihlen]
        · intro i g hg
          cases i with
          | zero =>
            simp only [List.getElem?_cons_zero, Option.some.injEq] at hg
            subst hg
            rw [prefixGenSum_succ_cons, prefixInSum_succ_cons]
            simp only [prefixGenSum, prefixInSum, List.take_zero, List.map_nil,
              List.sum_nil, add_zero]
            rw [apply_ite (fun m2 : AIMsg => m2.usage_metadata)]
            simp only [post_usage_none r cid message hpost]
          | succ i =>
            simp only [List.getElem?_cons_succ] at hg
            have hA : sg + prefixGenSum (r :: rest) (i + 1 + 1)
                = sg + r.generated_token_count.getD 0
                  + prefixGenSum rest (i + 1) := by
              rw [prefixGenSum_succ_cons]; ring
            have hB : si + prefixInSum (r :: rest) (i + 1 + 1)
                = si + r.input_token_count.getD 0
                  + prefixInSum rest (i + 1) := by
              rw [prefixInSum_succ_cons]; ring
            rw [hA, hB]
            exact ihidx i g hg
        · simp only [List.length_cons, prefixGenSum_succ_cons, ← add_assoc]
          exact ihg
        · simp only [List.length_cons, prefixInSum_succ_cons, ← add_assoc]
          exact ihi

theorem prefixGenSum_step : ∀ (rs : List ResultEntry) (n : Nat),
    (∀ r ∈ rs, 0 ≤ r.generated_token_count.getD 0) →
    prefixGenSum rs n ≤ prefixGenSum rs (n + 1) := by
  intro rs
  induction rs with
  | nil => intro n _; simp [prefixGenSum]
  | cons r rest ih =>
    intro n hnn
    cases n with
    | zero =>
      rw [prefixGenSum_succ_cons]
      have h0 : prefixGenSum (r :: rest) 0 = 0 := rfl
      rw [h0]
      have := hnn r (List.mem_cons_self r rest)
      have h1 : (0 : Int) ≤ prefixGenSum rest 0 := by simp [prefixGenSum]
      omega
    | succ m =>
      rw [prefixGenSum_succ_cons, prefixGenSum_succ_cons]
      have := ih m fun r2 hr2 => hnn r2 (List.mem_cons_of_mem r hr2)
      omega

theorem prefixInSum_step : ∀ (rs : List ResultEntry) (n : Nat),
    (∀ r ∈ rs, 0 ≤ r.input_token_count.getD 0) →
    prefixInSum rs n ≤ prefixInSum rs (n + 1) := by
  intro rs
  induction rs with
  | nil => intro n _; simp [prefixInSum]
  | cons r rest ih =>
    intro n hnn
    cases n with
    | zero =>
      rw [prefixInSum_succ_cons]
      have h0 : prefixInSum (r :: rest) 0 = 0 := rfl
      rw [h0]
      have := hnn r (List.mem_cons_self r rest)
      have h1 : (0 : Int) ≤ prefixInSum rest 0 := by simp [prefixInSum]
      omega
    | succ m =>
      rw [prefixInSum_succ_cons, prefixInSum_succ_cons]
      have := ih m fun r2 hr2 => hnn r2 (List.mem_cons_of_mem r hr2)
      omega

theorem prefixGenSum_mono (rs : List ResultEntry)
    (hnn : ∀ r ∈ rs, 0 ≤ r.generated_token_count.getD 0) :
    ∀ i j : Nat, i ≤ j → prefixGenSum rs i ≤ prefixGenSum rs j := by
  intro i j hij
  induction j, hij using Nat.le_induction with
  | base => exact le_refl _
  | succ j _ ihj => exact le_trans ihj (prefixGenSum_step rs j hnn)

theorem prefixInSum_mono (rs : List ResultEntry)
    (hnn : ∀ r ∈ rs, 0 ≤ r.input_token_count.getD 0) :
    ∀ i j : Nat, i ≤ j → prefixInSum rs i ≤ prefixInSum rs j := by
  intro i j hij
  induction j, hij using Nat.le_induction with
  | base => exact le_refl _
  | succ j _ ihj => exact le_trans ihj (prefixInSum_step rs j hnn)

/-- Claim C9: within one `_create_chat_result` call the two token
counters accumulate over the results in order (a missing field counts as
0) and monotonically when the per-result counts are non-negative; whenever
the cumulative total after the current entry is non-zero, that
generation's message carries usage metadata equal to the cumulative-so-far
input/output/total counts (so the last generation carries the full
totals, not a per-generation delta), and otherwise the message carries no
usage metadata. -/
theorem claim_C9 (response : RespModel) (call_id model_id : String)
    (result : ChatResultM)
    (hok : _create_chat_result response call_id model_id = .ok result) :
    result.generations.length = response.results.length
    ∧ (∀ (i : Nat) (g : GenM), result.generations[i]? = some g →
        g.message.usage_metadata =
          (if prefixGenSum response.results (i + 1)
              + prefixInSum response.results (i + 1) ≠ 0 then
            some ⟨prefixInSum response.results (i + 1),
                  prefixGenSum response.results (i + 1),
                  prefixGenSum response.results (i + 1)
                    + prefixInSum response.results (i + 1)⟩
          else Option.none))
    ∧ result.generated_token_count
        = prefixGenSum response.results response.results.length
    ∧ result.input_token_count
        = prefixInSum response.results response.results.length
    ∧ ((∀ r ∈ response.results, 0 ≤ r.generated_token_count.getD 0
          ∧ 0 ≤ r.input_token_count.getD 0) →
        ∀ i j : Nat, i ≤ j →
          prefixGenSum response.results i ≤ prefixGenSum response.results j
          ∧ prefixInSum response.results i ≤ prefixInSum response.results j) := by
  by_cases herr : truthy (response.error.getD PyVal.none)
  · simp [_create_chat_result, herr] at hok
  · cases hb : buildGens call_id 0 0 response.results with
    | error e => simp [_create_chat_result, herr, hb] at hok
    | ok out =>
      simp only [_create_chat_result, herr, hb, Bool.false_eq_true,
        if_false] at hok
      have h2 := Except.ok.inj hok
      subst h2
      obtain ⟨hlen, hidx, hg, hi⟩ :=
        buildGens_usage response.results call_id 0 0 out hb
      simp only [zero_add] at hidx hg hi
      refine ⟨hlen, hidx, hg, hi, ?_⟩
      intro hnn i j hij
      exact ⟨prefixGenSum_mono _ (fun r hr => (hnn r hr).1) i j hij,
             prefixInSum_mono _ (fun r hr => (hnn r hr).2) i j hij⟩

theorem witness_C9 :
    ((⟨[⟨⟨"hello", [], some ⟨5, 3, 8⟩⟩, some "max_tokens"⟩,
        ⟨⟨"world", [], some ⟨5, 5, 10⟩⟩, Option.none⟩], 5, 5, "m", ""⟩ :
        ChatResultM).generations.length
      = ([⟨"hello", some "max_tokens", some 3, some 5⟩,
          ⟨"world", Option.none, some 2, Option.none⟩] :
          List ResultEntry).length)
    ∧ (∀ (i : Nat) (g : GenM),
        (⟨[⟨⟨"hello", [], some ⟨5, 3, 8⟩⟩, some "max_tokens"⟩,
           ⟨⟨"world", [], some ⟨5, 5, 10⟩⟩, Option.none⟩], 5, 5, "m", ""⟩ :
           ChatResultM).generations[i]? = some g →
        g.message.usage_metadata =
          (if prefixGenSum [⟨"hello", some "max_tokens", some 3, some 5⟩,
                ⟨"world", Option.none, some 2, Option.none⟩] (i + 1)
              + prefixInSum [⟨"hello", some "max_tokens", some 3, some 5⟩,
                ⟨"world", Option.none, some 2, Option.none⟩] (i + 1) ≠ 0 then
            some ⟨prefixInSum [⟨"hello", some "max_tokens", some 3, some 5⟩,
                    ⟨"world", Option.none, some 2, Option.none⟩] (i + 1),
                  prefixGenSum [⟨"hello", some "max_tokens", some 3, some 5⟩,
                    ⟨"world", Option.none, some 2, Option.none⟩] (i + 1),
                  prefixGenSum [⟨"hello", some "max_tokens", some 3, some 5⟩,
                    ⟨"world", Option.none, some 2, Option.none⟩] (i + 1)
                    + prefixInSum [⟨"hello", some "max_tokens", some 3, some 5⟩,
                      ⟨"world", Option.none, some 2, Option.none⟩] (i + 1)⟩
          else Option.none))
    ∧ (⟨[⟨⟨"hello", [], some ⟨5, 3, 8⟩⟩, some "max_tokens"⟩,
         ⟨⟨"world", [], some ⟨5, 5, 10⟩⟩, Option.none⟩], 5, 5, "m", ""⟩ :
         ChatResultM).generated_token_count
      = prefixGenSum [⟨"hello", some "max_tokens", some 3, some 5⟩,
          ⟨"world", Option.none, some 2, Option.none⟩] 2
    ∧ (⟨[⟨⟨"hello", [], some ⟨5, 3, 8⟩⟩, some "max_tokens"⟩,
         ⟨⟨"world", [], some ⟨5, 5, 10⟩⟩, Option.none⟩], 5, 5, "m", ""⟩ :
         ChatResultM).input_token_count
      = prefixInSum [⟨"hello", some "max_tokens", some 3, some 5⟩,
          ⟨"world", Option.none, some 2, Option.none⟩] 2
    ∧ ((∀ r ∈ ([⟨"hello", some "max_tokens", some 3, some 5⟩,
          ⟨"world", Option.none, some 2, Option.none⟩] : List ResultEntry),
          0 ≤ r.generated_token_count.getD 0 ∧ 0 ≤ r.input_token_count.getD 0) →
        ∀ i j : Nat, i ≤ j →
          prefixGenSum [⟨"hello", some "max_tokens", some 3, some 5⟩,
              ⟨"world", Option.none, some 2, Option.none⟩] i
            ≤ prefixGenSum [⟨"hello", some "max_tokens", some 3, some 5⟩,
                ⟨"world", Option.none, some 2, Option.none⟩] j
          ∧ prefixInSum [⟨"hello", some "max_tokens", some 3, some 5⟩,
              ⟨"world", Option.none, some 2, Option.none⟩] i
            ≤ prefixInSum [⟨"hello", some "max_tokens", some 3, some 5⟩,
                ⟨"world", Option.none, some 2, Option.none⟩] j) :=
  claim_C9
    ⟨Option.none,
     [⟨"hello", some "max_tokens", some 3, some 5⟩,
      ⟨"world", Option.none, some 2, Option.none⟩], Option.none⟩
    "c" "m"
    ⟨[⟨⟨"hello", [], some ⟨5, 3, 8⟩⟩, some "max_tokens"⟩,
      ⟨⟨"world", [], some ⟨5, 5, 10⟩⟩, Option.none⟩], 5, 5, "m", ""⟩ rfl
